import Mathlib

/-!
Verification of the sales-PDF extraction and reconciliation core of
`app_boss.py` (Estoque-BB).  The Python functions are shallowly embedded as
executable Lean definitions over `List Char`; strings are modelled as ASCII /
Latin-1 character lists and Python `re` backtracking is implemented directly
(ordered alternation, greedy quantifiers with give-back, leftmost
non-overlapping `finditer` scans).
-/

set_option maxRecDepth 4000
set_option linter.unnecessarySeqFocus false

namespace EstoqueBB

/-- Strings are modelled as character lists (mirrors Python `str` indexing). -/
abbrev Str := List Char

/-- First-success choice, the ordered-alternation semantics of Python regex
alternation and of our backtracking continuations. -/
def oElse {α : Type} (a b : Option α) : Option α :=
  match a with
  | some x => some x
  | none => b

theorem oElse_eq_some {α : Type} {a b : Option α} {x : α}
    (h : oElse a b = some x) : a = some x ∨ b = some x := by
  cases a <;> simp [oElse] at h <;> simp [h]

/-- ASCII decimal digit, the `\d` class on the inputs handled here. -/
def isDig (c : Char) : Bool := decide (48 ≤ c.toNat ∧ c.toNat ≤ 57)

/-- The `[A-Z]` character class. -/
def isUpperAZ (c : Char) : Bool := decide (65 ≤ c.toNat ∧ c.toNat ≤ 90)

/-- Upper-case accented letters appearing in the source's character classes. -/
def accentUppers : List Char :=
  ['Á', 'À', 'Â', 'Ã', 'É', 'È', 'Ê', 'Í', 'Ì', 'Î', 'Ó', 'Ò', 'Ô', 'Õ', 'Ú', 'Ù', 'Û', 'Ç']

/-- The `[A-Z0-9ÁÀÂÃÉÈÊÍÌÎÓÒÔÕÚÙÛÇ]` class used in the SKU token grammar. -/
def isAlnumTok (c : Char) : Bool := isUpperAZ c || isDig c || accentUppers.contains c

/-- Python whitespace (`\s`, `str.strip`) restricted to its ASCII members. -/
def isPySpace (c : Char) : Bool :=
  c = ' ' || c = '\t' || c = '\n' || c = '\r' || c = '\x0b' || c = '\x0c'

/-- `str.upper` on the character repertoire used by the program (ASCII plus
the accented letters of the source's classes). -/
def pyUpperChar (c : Char) : Char :=
  if 97 ≤ c.toNat ∧ c.toNat ≤ 122 then Char.ofNat (c.toNat - 32)
  else
    match c with
    | 'á' => 'Á' | 'à' => 'À' | 'â' => 'Â' | 'ã' => 'Ã'
    | 'é' => 'É' | 'è' => 'È' | 'ê' => 'Ê'
    | 'í' => 'Í' | 'ì' => 'Ì' | 'î' => 'Î'
    | 'ó' => 'Ó' | 'ò' => 'Ò' | 'ô' => 'Ô' | 'õ' => 'Õ'
    | 'ú' => 'Ú' | 'ù' => 'Ù' | 'û' => 'Û'
    | 'ç' => 'Ç'
    | c => c

def pyUpper (s : Str) : Str := s.map pyUpperChar

/-- `str.strip()` with default (whitespace) argument. -/
def stripWs (s : Str) : Str :=
  ((s.dropWhile isPySpace).reverse.dropWhile isPySpace).reverse

/-- `sanitize_sku`: strip, upper-case, remove spaces, then keep only
`[A-Z0-9\-_ÁÀÂÃÉÈÊÍÌÎÓÒÔÕÚÙÛÇ]` (app_boss.py lines 263-265). -/
def sanitize_sku (s : Str) : Str :=
  let s1 := pyUpper (stripWs s)
  let s2 := s1.filter (fun c => c ≠ ' ')
  s2.filter (fun c => isUpperAZ c || isDig c || c = '-' || c = '_' || accentUppers.contains c)

/-- `normalize_key`: `sanitize_sku` then remove everything outside `[A-Z0-9]`
(app_boss.py lines 267-269). -/
def normalize_key (s : Str) : Str :=
  (sanitize_sku s).filter (fun c => isUpperAZ c || isDig c)

/-- Collapse runs of two or more hyphens to one (`re.sub(r"-{2,}", "-", s)`). -/
def collapseDashes : Bool → Str → Str
  | _, [] => []
  | prevDash, c :: rest =>
    if c = '-' then
      if prevDash then collapseDashes true rest else '-' :: collapseDashes true rest
    else c :: collapseDashes false rest

/-- The parser's local `norm`: upper-case, delete whitespace, collapse repeated
hyphens (app_boss.py lines 901-905). -/
def norm (s : Str) : Str :=
  collapseDashes false ((pyUpper s).filter (fun c => ¬ isPySpace c))

/-- Numeric value of one ASCII digit (`int` of a single character). -/
def digitVal (c : Char) : Nat := c.toNat - 48

/-- `int` of a decimal digit string. -/
def digitsVal (s : Str) : Nat := s.foldl (fun a c => 10 * a + digitVal c) 0

/-- `maybe_int` (app_boss.py lines 907-914): accept only a full `\d{1,3}`
match; a candidate whose following character is `/` is truncated to its first
digit (date protection), otherwise the whole number is read. -/
def maybe_int (txt : Str) (nextChar : Option Char) : Option Nat :=
  if 1 ≤ txt.length ∧ txt.length ≤ 3 ∧ txt.all isDig then
    if nextChar = some '/' then some (digitVal (txt.headD '0'))
    else some (digitsVal txt)
  else none

theorem isDig_toNat {c : Char} (h : isDig c = true) :
    48 ≤ c.toNat ∧ c.toNat ≤ 57 := by
  simpa [isDig] using h

theorem digitVal_le_nine {c : Char} (h : isDig c = true) : digitVal c ≤ 9 := by
  have := isDig_toNat h
  unfold digitVal
  omega

theorem digitsVal_le {t : Str} (h1 : t.length ≤ 3) (h2 : t.all isDig = true) :
    digitsVal t ≤ 999 := by
  match t with
  | [] => simp [digitsVal]
  | [a] =>
    simp only [List.all_cons, List.all_nil, Bool.and_true] at h2
    have := digitVal_le_nine h2
    simp only [digitsVal, List.foldl]
    omega
  | [a, b] =>
    simp only [List.all_cons, List.all_nil, Bool.and_true, Bool.and_eq_true] at h2
    have ha := digitVal_le_nine h2.1
    have hb := digitVal_le_nine h2.2
    simp only [digitsVal, List.foldl]
    omega
  | [a, b, c] =>
    simp only [List.all_cons, List.all_nil, Bool.and_true, Bool.and_eq_true] at h2
    have ha := digitVal_le_nine h2.1
    have hb := digitVal_le_nine h2.2.1
    have hc := digitVal_le_nine h2.2.2
    simp only [digitsVal, List.foldl]
    omega
  | _ :: _ :: _ :: _ :: _ => simp at h1

theorem maybe_int_le {t : Str} {nc : Option Char} {v : Nat}
    (h : maybe_int t nc = some v) : v ≤ 999 := by
  unfold maybe_int at h
  split at h
  · rename_i hg
    split at h
    · cases h
      match t, hg with
      | c :: _, hg =>
        have hd : isDig c = true := by
          have := hg.2.2
          simp only [List.all_cons, Bool.and_eq_true] at this
          exact this.1
        have := digitVal_le_nine hd
        simp only [List.headD]
        omega
    · cases h
      exact digitsVal_le hg.2.1 hg.2.2
  · cases h

/-! ### Backtracking matcher for the scanner's regexes

`SIZE = (?:XGG|GG|XG|PP|G|M|P|\d{1,3})` and
`TOKEN = (?:[A-Z]{2,}(?:-[A-Z]{2,}){0,2})-ALNUM+(?:-ALNUM+)?-SIZE`, compiled
into `sku_pattern = (TOKEN)(\d{1,3})?` (app_boss.py lines 888-895).  The
continuation-passing functions below reproduce Python's ordered alternation
and greedy (longest-first, giving back on failure) quantifiers. -/

/-- Try consuming `t` characters of `s` (longest first, down to `lo`) and run
the continuation; the greedy single-class quantifier's backtracking. -/
def tryDown {α : Type} (s : Str) (k : Str → Option α) (lo : Nat) : Nat → Option α
  | 0 => if lo = 0 then k s else none
  | t + 1 => if t + 1 < lo then none else oElse (k (s.drop (t + 1))) (tryDown s k lo t)

/-- Greedy `p{lo,hi}` over a character class `p`, with continuation `k`. -/
def greedyCls {α : Type} (p : Char → Bool) (lo : Nat) (hi : Option Nat)
    (s : Str) (k : Str → Option α) : Option α :=
  let runLen := (s.takeWhile p).length
  let mx := match hi with
    | some h => min runLen h
    | none => runLen
  if mx < lo then none else tryDown s k lo mx

/-- Literal string item with continuation. -/
def litK {α : Type} (l : Str) (s : Str) (k : Str → Option α) : Option α :=
  if l.isPrefixOf s then k (s.drop l.length) else none

/-- `SIZE` alternation, in the source's order. -/
def sizeK {α : Type} (s : Str) (k : Str → Option α) : Option α :=
  oElse (litK ['X', 'G', 'G'] s k)
    (oElse (litK ['G', 'G'] s k)
      (oElse (litK ['X', 'G'] s k)
        (oElse (litK ['P', 'P'] s k)
          (oElse (litK ['G'] s k)
            (oElse (litK ['M'] s k)
              (oElse (litK ['P'] s k)
                (greedyCls isDig 1 (some 3) s k)))))))

/-- One `-[A-Z]{2,}` unit of the leading segment group. -/
def unitSeg {α : Type} (s : Str) (k : Str → Option α) : Option α :=
  match s with
  | '-' :: s1 => greedyCls isUpperAZ 2 none s1 k
  | _ => none

/-- Greedy `(?:-[A-Z]{2,}){0,2}`: two repetitions, then one, then zero. -/
def rep02 {α : Type} (s : Str) (k : Str → Option α) : Option α :=
  oElse (unitSeg s (fun s1 => oElse (unitSeg s1 k) (k s1))) (k s)

/-- `-SIZE` suffix item. -/
def dashSize {α : Type} (s : Str) (k : Str → Option α) : Option α :=
  match s with
  | '-' :: s1 => sizeK s1 k
  | _ => none

/-- The full `TOKEN` grammar with continuation. -/
def matchTOKEN {α : Type} (s : Str) (k : Str → Option α) : Option α :=
  greedyCls isUpperAZ 2 none s (fun s1 =>
    rep02 s1 (fun s2 =>
      match s2 with
      | '-' :: s3 =>
        greedyCls isAlnumTok 1 none s3 (fun s4 =>
          oElse
            (match s4 with
             | '-' :: s5 => greedyCls isAlnumTok 1 none s5 (fun s6 => dashSize s6 k)
             | _ => none)
            (dashSize s4 k))
      | _ => none))

/-- One `sku_pattern` match attempted at the start of `s`: group 1 text, the
optional `(\d{1,3})` group 2 text, and the remaining suffix after the match. -/
structure MatchInfo where
  token : Str
  g2 : Option Str
  rest : Str
deriving DecidableEq

def matchAt (s : Str) : Option MatchInfo :=
  match matchTOKEN s (fun rest1 => some rest1) with
  | none => none
  | some rest1 =>
    let token := s.take (s.length - rest1.length)
    let dlen := min 3 (rest1.takeWhile isDig).length
    if dlen = 0 then some ⟨token, none, rest1⟩
    else some ⟨token, some (rest1.take dlen), rest1.drop dlen⟩

/-- Leftmost match in `s` (the scan-forward behaviour of `finditer`). -/
def leftmost : Str → Option MatchInfo
  | [] => none
  | c :: tl => oElse (matchAt (c :: tl)) (leftmost tl)

/-- All non-overlapping matches in document order, plus the suffix after the
last match (which is `compact[last_end:]`, the `tail` of lines 969-970). -/
def findAllGo : Nat → Str → List MatchInfo × Str
  | 0, s => ([], s)
  | fuel + 1, s =>
    match leftmost s with
    | none => ([], s)
    | some mi =>
      let p := findAllGo fuel mi.rest
      (mi :: p.1, p.2)

def findAll (s : Str) : List MatchInfo × Str := findAllGo (s.length + 1) s

/-- Lookahead `(?=(?:[A-Z]{2,}(?:-[A-Z]{2,}){0,2})-)` of the preface-size
patterns (app_boss.py lines 896-897). -/
def lookSegs (r : Str) : Bool :=
  (greedyCls isUpperAZ 2 none r (fun r1 =>
    rep02 r1 (fun r2 =>
      match r2 with
      | '-' :: _ => some 0
      | _ => none))).isSome

/-- `preface_size_start.sub("", compact)`: drop one leading stray size token
when a SKU-looking pattern follows. -/
def prefaceStart (s : Str) : Str :=
  match sizeK s (fun rest => if lookSegs rest then some rest else none) with
  | some rest => rest
  | none => s

/-- `preface_size_after_comma.sub(",", compact)`: same removal after each
comma, scanning left to right as `re.sub` does. -/
def prefCommaGo : Nat → Str → Str
  | 0, s => s
  | _, [] => []
  | fuel + 1, c :: rest =>
    if c = ',' then
      match sizeK rest (fun r => if lookSegs r then some r else none) with
      | some r => ',' :: prefCommaGo fuel r
      | none => ',' :: prefCommaGo fuel rest
    else c :: prefCommaGo fuel rest

def prefaceComma (s : Str) : Str := prefCommaGo s.length s

/-! ### Line preprocessing (app_boss.py lines 852-886) -/

def splitNlGo (cur : Str) : Str → List Str
  | [] => [cur.reverse]
  | c :: t => if c = '\n' then cur.reverse :: splitNlGo [] t else splitNlGo (c :: cur) t

/-- `raw.replace("\r", "\n").split("\n")`. -/
def splitNl (s : Str) : List Str :=
  splitNlGo [] (s.map (fun c => if c = '\r' then '\n' else c))

/-- `re.sub(r"\s+\d+/\d+\s*$", "", ln)`: strip a trailing page `N/M` marker. -/
def dropPagination (l : Str) : Str :=
  let r1 := l.reverse.dropWhile isPySpace
  let d1 := r1.takeWhile isDig
  if d1 = [] then l
  else
    match r1.drop d1.length with
    | '/' :: r3 =>
      let d2 := r3.takeWhile isDig
      if d2 = [] then l
      else
        let r4 := r3.drop d2.length
        let sp := r4.takeWhile isPySpace
        if sp = [] then l else (r4.drop sp.length).reverse
    | _ => l

/-- Substring containment (for the `IMPRIMIR.*UPSELLER` pattern). -/
def containsSeq (n : Str) : Str → Bool
  | [] => n.isPrefixOf []
  | c :: t => n.isPrefixOf (c :: t) || containsSeq n t

/-- Full match of `^\d+/\d+$`. -/
def fullFracDigits (u : Str) : Bool :=
  let d1 := u.takeWhile isDig
  if d1 = [] then false
  else
    match u.drop d1.length with
    | '/' :: r2 => !r2.isEmpty && r2.all isDig
    | _ => false

/-- Prefix match of `^\d{1,2}/\d{1,2}/\d{4}` (with regex backtracking). -/
def dateStart (u : Str) : Bool :=
  (greedyCls isDig 1 (some 2) u (fun r1 =>
    match r1 with
    | '/' :: r2 =>
      greedyCls isDig 1 (some 2) r2 (fun r3 =>
        match r3 with
        | '/' :: r4 =>
          if (r4.take 4).length = 4 ∧ (r4.take 4).all isDig then some 0 else none
        | _ => none)
    | _ => none)).isSome

/-- `skip_re` (app_boss.py lines 856-870): boilerplate lines dropped from the
report, matched case-insensitively at line start. -/
def skipLine (l : Str) : Bool :=
  let u := pyUpper l
  ("LISTA DE RESUMO".toList.isPrefixOf u) ||
  ("(PRODUTOS DO ARMAZEM)".toList.isPrefixOf u) ||
  ("(PRODUTOS DO ARMAZÉM)".toList.isPrefixOf u) ||
  ("PRODUTOS DO ARMAZEM".toList.isPrefixOf u) ||
  ("PRODUTOS DO ARMAZÉM".toList.isPrefixOf u) ||
  (["VARIACAO".toList, "VARIAÇAO".toList, "VARIACÃO".toList, "VARIAÇÃO".toList].contains u) ||
  (u == "SKU DE PRODUTO".toList) ||
  (u == "QTD".toList) || (u == "QTD.".toList) ||
  ("IMPRIMIR".toList.isPrefixOf u && containsSeq "UPSELLER".toList (u.drop 8)) ||
  ("HTTP://".toList.isPrefixOf u) || ("HTTPS://".toList.isPrefixOf u) ||
  fullFracDigits u ||
  dateStart u ||
  ("QTD. DE PEDIDOS".toList.isPrefixOf u) ||
  ("NUMERO DE SKUS DE PRODUTOS".toList.isPrefixOf u) ||
  ("NÚMERO DE SKUS DE PRODUTOS".toList.isPrefixOf u) ||
  ("TOTAL DE PRODUTOS".toList.isPrefixOf u)

def endsDash (s : Str) : Bool :=
  match s.getLast? with
  | some '-' => true
  | _ => false

/-- Inner `while` of the hyphen-join loop: keep appending following lines
while the accumulated line still ends with a hyphen. -/
def absorb (cur : Str) : List Str → Str × List Str
  | [] => (cur, [])
  | z :: r => if endsDash cur then absorb (cur ++ z) r else (cur, z :: r)

/-- The hyphen-continuation merge loop (app_boss.py lines 873-886); fuel is
the list length, which bounds the number of iterations since every step
consumes at least one line. -/
def mergeHyphenGo : Nat → List Str → List Str
  | 0, l => l
  | _ + 1, [] => []
  | _ + 1, [x] => [x]
  | fuel + 1, x :: y :: rest =>
    if endsDash x then
      let p := absorb (x ++ y) rest
      p.1 :: mergeHyphenGo fuel p.2
    else x :: mergeHyphenGo fuel (y :: rest)

def mergeHyphen (l : List Str) : List Str := mergeHyphenGo l.length l

/-- The cleaned, merged line list fed to the scanner (lines 852-886): split,
strip, drop empties, strip pagination, drop boilerplate, join hyphenated
continuations. -/
def mergedLines (raw : Str) : List Str :=
  let lines1 := ((splitNl raw).map stripWs).filter (fun l => !l.isEmpty)
  let lines2 := lines1.map dropPagination
  mergeHyphen (lines2.filter (fun l => !skipLine l))

/-! ### Fused size/quantity disambiguation (app_boss.py lines 898-899, 930-945) -/

/-- `recognized_sizes` (app_boss.py line 899). -/
def recognizedSizes : List Str :=
  ["4".toList, "6".toList, "8".toList, "10".toList, "12".toList, "14".toList,
   "16".toList, "P".toList, "M".toList, "G".toList, "GG".toList, "PP".toList,
   "XG".toList, "XGG".toList]

/-- Does `s` match the `size_suffix_re` alternation `XGG|GG|XG|PP|G|M|P|\d{1,3}`? -/
def sizeAltOk (s : Str) : Bool :=
  (["XGG".toList, "GG".toList, "XG".toList, "PP".toList,
    "G".toList, "M".toList, "P".toList].contains s) ||
  (decide (1 ≤ s.length ∧ s.length ≤ 3) && s.all isDig)

/-- `size_suffix_re.match(token)`: split `token` as `^(.*-)(ALT)$`, the group-1
prefix keeping its final hyphen.  Backtracking past the last hyphen can never
succeed because no alternative contains a hyphen. -/
def sizeSuffixSplit (token : Str) : Option (Str × Str) :=
  if token.contains '-' then
    let suf := (token.reverse.takeWhile (fun c => c ≠ '-')).reverse
    if sizeAltOk suf then some (token.take (token.length - suf.length), suf) else none
  else none

/-- The `while len(s) > 1 and s not in recognized_sizes` peel loop: move
trailing characters of the size field into the quantity. -/
def peelLoop : Nat → Str → Str → Str × Str
  | 0, s, take => (s, take)
  | n + 1, s, take =>
    if 1 < s.length ∧ ¬ s ∈ recognizedSizes then
      match s.reverse with
      | [] => (s, take)
      | c :: rest => peelLoop n rest.reverse (c :: take)
    else (s, take)

def peel (s : Str) : Str × Str := peelLoop s.length s []

/-- The trailing-digit disambiguation applied to each match (lines 930-945):
returns the (possibly trimmed) token and the (possibly fused) quantity text. -/
def heuristic (token : Str) (g2 : Option Str) : Str × Option Str :=
  match sizeSuffixSplit token with
  | none => (token, g2)
  | some pr =>
    let pre := pr.1
    let size_part := pr.2
    let step1 : Str × Option Str :=
      if g2.isNone ∧ 2 ≤ size_part.length ∧ size_part.length ≤ 3 ∧
          size_part.all isDig ∧ ¬ size_part ∈ recognizedSizes then
        let pl := peel size_part
        if pl.2 ≠ [] then (pre ++ pl.1, some pl.2) else (token, none)
      else (token, g2)
    if step1.2.isNone ∧ size_part.length = 3 ∧ size_part.all isDig then
      (pre ++ size_part.take 2, some (size_part.drop 2))
    else step1

/-! ### The pending-token tail patterns (app_boss.py lines 971, 989) -/

/-- Capture group `(\d{1,3})` under a full-match requirement: succeeds exactly
when the whole remainder is 1-3 digits. -/
def capDigits (r : Str) : Option Str :=
  if 1 ≤ r.length ∧ r.length ≤ 3 ∧ r.all isDig then some r else none

def stripLit (l t : Str) : Option Str :=
  if l.isPrefixOf t then some (t.drop l.length) else none

def stripDig (n : Nat) (t : Str) : Option Str :=
  if (t.take n).length = n ∧ (t.take n).all isDig then some (t.drop n) else none

/-- `re.fullmatch(rf"(?:{SIZE})?(\d{{1,3}})", tail)` returning the captured
digit group; alternatives in Python's backtracking order. -/
def m2match (t : Str) : Option Str :=
  oElse ((stripLit "XGG".toList t).bind capDigits)
    (oElse ((stripLit "GG".toList t).bind capDigits)
      (oElse ((stripLit "XG".toList t).bind capDigits)
        (oElse ((stripLit "PP".toList t).bind capDigits)
          (oElse ((stripLit "G".toList t).bind capDigits)
            (oElse ((stripLit "M".toList t).bind capDigits)
              (oElse ((stripLit "P".toList t).bind capDigits)
                (oElse ((stripDig 3 t).bind capDigits)
                  (oElse ((stripDig 2 t).bind capDigits)
                    (oElse ((stripDig 1 t).bind capDigits)
                      (capDigits t))))))))))

theorem capDigits_le {r cap : Str} (h : capDigits r = some cap) :
    digitsVal cap ≤ 999 := by
  unfold capDigits at h
  split at h
  · rename_i hg
    cases h
    exact digitsVal_le hg.2.1 hg.2.2
  · cases h

theorem bind_capDigits_le {o : Option Str} {cap : Str}
    (h : o.bind capDigits = some cap) : digitsVal cap ≤ 999 := by
  rw [Option.bind_eq_some] at h
  obtain ⟨a, _, ha⟩ := h
  exact capDigits_le ha

theorem m2match_le {t cap : Str} (h : m2match t = some cap) :
    digitsVal cap ≤ 999 := by
  unfold m2match at h
  rcases oElse_eq_some h with h | h
  · exact bind_capDigits_le h
  rcases oElse_eq_some h with h | h
  · exact bind_capDigits_le h
  rcases oElse_eq_some h with h | h
  · exact bind_capDigits_le h
  rcases oElse_eq_some h with h | h
  · exact bind_capDigits_le h
  rcases oElse_eq_some h with h | h
  · exact bind_capDigits_le h
  rcases oElse_eq_some h with h | h
  · exact bind_capDigits_le h
  rcases oElse_eq_some h with h | h
  · exact bind_capDigits_le h
  rcases oElse_eq_some h with h | h
  · exact bind_capDigits_le h
  rcases oElse_eq_some h with h | h
  · exact bind_capDigits_le h
  rcases oElse_eq_some h with h | h
  · exact bind_capDigits_le h
  · exact capDigits_le h

/-! ### SKU resolution (app_boss.py lines 806-827, 955-963)

The mapping table and catalog are passed in as snapshots of the database
reads `SELECT sku_pdf, sku_estoque FROM sku_mapping` and `list_variants_df`.
Python dict comprehensions keep the last entry per key, hence the
`reverse.find?` lookups. -/

/-- `get_sku_mapping`: mapping-table lookup by sanitized key, falling back to
normalized-equality matching against the catalog. -/
def get_sku_mapping (mapping : List (Str × Str)) (catalog : List Str)
    (sku_pdf_norm : Str) : Option Str :=
  let key_pdf := sanitize_sku sku_pdf_norm
  match mapping.reverse.find? (fun kv => sanitize_sku kv.1 == key_pdf) with
  | some kv => some kv.2
  | none =>
    if catalog.isEmpty then none
    else
      match catalog.reverse.find? (fun sku => normalize_key sku == normalize_key key_pdf) with
      | some sku => some sku
      | none => none

/-- The `(resolvedSku, mapped)` pair as built into each extracted fact:
`"sku": mapped or sku_n` and `"mapeado": bool(mapped)` (lines 955-962).
Python truthiness makes the empty string behave like `None`. -/
def resolveFact (mapping : List (Str × Str)) (catalog : List Str) (sku_n : Str) :
    Str × Bool :=
  match get_sku_mapping mapping catalog sku_n with
  | none => (sku_n, false)
  | some m => if m = [] then (sku_n, false) else (m, true)

/-! ### The scanner's per-document state and emission (lines 916-1010) -/

/-- One extracted row of `movimentos` (the constant `produto`/`variacao`
display fields are omitted as presentation-only). -/
structure Fact where
  sku_pdf : Str
  sku : Str
  quantidade : Nat
  mapeado : Bool
deriving DecidableEq

structure ScanState where
  movimentos : List Fact
  vistos : List (Str × Nat)
  pending : Option Str
deriving DecidableEq

/-- The shared emission block: dedup on `(sku_n, qty)` in `vistos`, resolve,
append (lines 951-963, repeated at 974-986 and 992-1004). -/
def emitFact (mapping : List (Str × Str)) (catalog : List Str)
    (st : ScanState) (sku_n : Str) (q : Nat) : ScanState :=
  if (sku_n, q) ∈ st.vistos then st
  else
    let r := resolveFact mapping catalog sku_n
    { st with
      vistos := (sku_n, q) :: st.vistos,
      movimentos := st.movimentos ++ [⟨sku_n, r.1, q, r.2⟩] }

/-- The `next_char` computation of line 947, for a present final `qty_str`.
When regex group 2 participated, it is the character at `m.end(2)` when that
is in range, else the one at `m.end(1)` (the first digit of group 2).  When
the quantity was fabricated by the heuristic, group 2 did not participate,
`m.end(2)` is `-1`, and Python's negative indexing reads the LAST character
of the compacted line (`lastChar`). -/
def nextCharOf (g2 : Option Str) (rest : Str) (lastChar : Option Char) : Option Char :=
  match g2 with
  | some q2 =>
    (match rest with
     | c :: _ => some c
     | [] => q2.head?)
  | none => lastChar

/-- Processing of one regex match (lines 926-967). -/
def stepMatch (mapping : List (Str × Str)) (catalog : List Str)
    (lastChar : Option Char) (st : ScanState) (mi : MatchInfo) : ScanState :=
  let tq := heuristic mi.token mi.g2
  match tq.2 with
  | none => { st with pending := some tq.1 }
  | some q =>
    match maybe_int q (nextCharOf mi.g2 mi.rest lastChar) with
    | some v => { emitFact mapping catalog st (norm tq.1) v with pending := none }
    | none => { st with pending := some tq.1 }

/-- Resolution of a pending bare token against the line tail past the last
match (lines 969-1005). -/
def stepTail (mapping : List (Str × Str)) (catalog : List Str)
    (tail : Str) (st : ScanState) : ScanState :=
  match st.pending with
  | none => st
  | some p =>
    if 1 ≤ tail.length ∧ tail.length ≤ 3 ∧ tail.all isDig then
      match maybe_int tail none with
      | some q => { emitFact mapping catalog st (norm p) q with pending := none }
      | none => st
    else
      match m2match tail with
      | some cap =>
        { emitFact mapping catalog st (norm p) (digitsVal cap) with pending := none }
      | none => st

/-- One line of the main loop (lines 920-1005): compact, strip preface sizes,
scan all matches, then try to resolve a pending token from the tail. -/
def stepLine (mapping : List (Str × Str)) (catalog : List Str)
    (st : ScanState) (ln : Str) : ScanState :=
  let compact := prefaceComma (prefaceStart (norm ln))
  let fa := findAll compact
  let st1 := fa.1.foldl (stepMatch mapping catalog compact.getLast?) st
  stepTail mapping catalog fa.2 st1

/-- The whole document scan: fresh state, fold over the merged lines. -/
def runDoc (mapping : List (Str × Str)) (catalog : List Str) (raw : Str) : ScanState :=
  (mergedLines raw).foldl (stepLine mapping catalog) ⟨[], [], none⟩

/-- `processar_pdf_vendas` from the extracted text onward (lines 852-1010):
returns the success flag, the extracted facts, and the user message. -/
def processar (mapping : List (Str × Str)) (catalog : List Str) (raw : Str) :
    Bool × List Fact × Str :=
  let st := runDoc mapping catalog raw
  if st.movimentos = [] then (false, [], "Nenhum item encontrado no PDF.".toList)
  else
    (true, st.movimentos,
      ("Encontrados " ++ toString st.movimentos.length ++ " itens no PDF").toList)

/-! ### Commit-side: preview simulation and "Aplicar baixas"
(app_boss.py lines 263-275, 397-442, 1300-1465)

A `Row` is one line of the editable dataframe built from the parser output
(`sku_pdf`, read-only `quantidade`, operator-editable `quantidade_corrigida`
initialised from it, editable `sku`).  The `catalog` parameter is the list of
catalog SKUs (`list_variants_df`/`stock_df` snapshot); `stock` is the
`{sku: estoque}` map of the live stock view. -/

structure Row where
  sku_pdf : Str
  quantidade : Int
  quantidade_corrigida : Int
  sku : Str
  mapeado : Bool
deriving DecidableEq

/-- One row inserted into `movements` by `record_movement`. -/
structure Movement where
  sku : Str
  qty : Int
  reason : Str
deriving DecidableEq

/-- `record_movement` (lines 397-442): raises (here `none`) when the SKU is
not in `variants`, otherwise inserts the movement row. -/
def record_movement (variants : List Str) (sku : Str) (qty : Int) (reason : Str) :
    Option Movement :=
  if sku ∈ variants then some ⟨sku, qty, reason⟩ else none

/-- `sanitized_to_original_sku_map` lookup (lines 271-275): last catalog entry
per sanitized key, as in the Python dict comprehension. -/
def to_original_if_possible (catalog : List Str) (s : Str) : Str :=
  match catalog.reverse.find? (fun o => sanitize_sku o == sanitize_sku s) with
  | some o => o
  | none => s

/-- `status_row` (lines 1336-1341). -/
def status_row (after : Int) : Str :=
  if after < 0 then "FICA NEGATIVO".toList
  else if after = 0 then "ZERA ESTOQUE".toList
  else "OK".toList

/-- One row of the conference preview (lines 1312-1344). -/
structure PreviewRow where
  skuEst : Str
  usada : Int
  antes : Int
  depois : Int
  status : Str
deriving DecidableEq

/-- `previewRow`: used quantity is the corrected one clipped at 0, stock
before defaults to 0 for SKUs absent from the stock map, after = before -
used, status from `status_row`. -/
def previewRow (catalog : List Str) (stock : List (Str × Int)) (r : Row) : PreviewRow :=
  let skuEst := to_original_if_possible catalog r.sku
  let usada := max r.quantidade_corrigida 0
  let antes :=
    match stock.reverse.find? (fun p => p.1 == skuEst) with
    | some p => p.2
    | none => 0
  let depois := antes - usada
  ⟨skuEst, usada, antes, depois, status_row depois⟩

/-- Accumulated result of the "Aplicar baixas" loop (lines 1418-1465). -/
structure ApplyResult where
  movements : List Movement
  upserts : List (Str × Str)
  ok : Nat
  mapeados : Nat
  erros : Nat
  faltando : Nat
deriving DecidableEq

/-- One iteration of the commit loop (lines 1423-1460): empty sanitized SKU
counts as `faltando`; a sanitized SKU absent from the catalog counts as
`erros`; otherwise record a movement of `-abs(qtd)` with reason `venda_pdf`
and optionally upsert the mapping. -/
def applyRow (catalog : List Str) (gravaMap : Bool) (acc : ApplyResult) (r : Row) :
    ApplyResult :=
  let sku_pdf_s := sanitize_sku r.sku_pdf
  let qtd := r.quantidade_corrigida
  let sku_est_sanit := sanitize_sku r.sku
  if sku_est_sanit = [] then { acc with faltando := acc.faltando + 1 }
  else
    match catalog.reverse.find? (fun o => sanitize_sku o == sku_est_sanit) with
    | none => { acc with erros := acc.erros + 1 }
    | some orig =>
      match record_movement catalog orig (-(|qtd|)) "venda_pdf".toList with
      | none => { acc with erros := acc.erros + 1 }
      | some mv =>
        let acc1 := { acc with ok := acc.ok + 1, movements := acc.movements ++ [mv] }
        if gravaMap ∧ sku_pdf_s ≠ [] then
          { acc1 with
            upserts := acc1.upserts ++ [(sku_pdf_s, orig)],
            mapeados := acc1.mapeados + 1 }
        else acc1

def applyRows (catalog : List Str) (gravaMap : Bool) (rows : List Row) : ApplyResult :=
  rows.foldl (applyRow catalog gravaMap) ⟨[], [], 0, 0, 0, 0⟩

/-- Outcome of pressing "Aplicar baixas (venda_pdf)". -/
inductive CommitOutcome where
  | rejectedHighQty
  | rejectedEmpty
  | rejectedInvalidQty
  | applied (res : ApplyResult)
deriving DecidableEq

/-- The button handler's gate sequence (lines 1403-1414): unconfirmed
high-quantity rows, empty batch, then any non-positive corrected quantity
each reject the whole batch before the loop runs. -/
def aplicarBaixas (catalog : List Str) (gravaMap confirmHigh : Bool)
    (rows : List Row) : CommitOutcome :=
  if (∃ r ∈ rows, 99 < max r.quantidade_corrigida 0) ∧ confirmHigh = false then
    .rejectedHighQty
  else if rows = [] then .rejectedEmpty
  else if ∃ r ∈ rows, r.quantidade_corrigida ≤ 0 then .rejectedInvalidQty
  else .applied (applyRows catalog gravaMap rows)

/-- Movements actually written to the store for a given outcome. -/
def movementsOf : CommitOutcome → List Movement
  | .applied res => res.movements
  | _ => []

/-! ### Invariants of the scan loop -/

/-- All emitted quantities are at most 999. -/
def qtyOK (st : ScanState) : Prop := ∀ f ∈ st.movimentos, f.quantidade ≤ 999

def keyF (f : Fact) : Str × Nat := (f.sku_pdf, f.quantidade)

/-- Emitted `(sku_pdf, quantidade)` keys are distinct and recorded in `vistos`. -/
def keyOK (st : ScanState) : Prop :=
  (st.movimentos.map keyF).Nodup ∧ ∀ f ∈ st.movimentos, keyF f ∈ st.vistos

theorem emitFact_qtyOK {m : List (Str × Str)} {c : List Str} {st : ScanState}
    {s : Str} {q : Nat} (h : qtyOK st) (hq : q ≤ 999) :
    qtyOK (emitFact m c st s q) := by
  unfold emitFact
  split
  · exact h
  · intro f hf
    simp only [List.mem_append, List.mem_singleton] at hf
    rcases hf with hf | hf
    · exact h f hf
    · subst hf; exact hq

theorem emitFact_keyOK {m : List (Str × Str)} {c : List Str} {st : ScanState}
    {s : Str} {q : Nat} (h : keyOK st) :
    keyOK (emitFact m c st s q) := by
  unfold emitFact
  split
  · exact h
  · rename_i hnot
    constructor
    · rw [List.map_append]
      rw [List.nodup_append]
      refine ⟨h.1, List.nodup_singleton _, ?_⟩
      intro a ha hb
      simp only [List.map_cons, List.map_nil, List.mem_singleton] at hb
      subst hb
      obtain ⟨f, hf, hkf⟩ := List.mem_map.mp ha
      apply hnot
      have hv := h.2 f hf
      rw [hkf] at hv
      simpa [keyF] using hv
    · intro f hf
      simp only [List.mem_append, List.mem_singleton] at hf
      rcases hf with hf | hf
      · exact List.mem_cons_of_mem _ (h.2 f hf)
      · subst hf; exact List.mem_cons_self _ _

/-- The per-match step either only rewrites the pending slot or performs an
emission whose quantity came out of `maybe_int`. -/
theorem stepMatch_shape (m : List (Str × Str)) (c : List Str) (lc : Option Char)
    (st : ScanState) (mi : MatchInfo) :
    ((stepMatch m c lc st mi).movimentos = st.movimentos ∧
      (stepMatch m c lc st mi).vistos = st.vistos) ∨
    (∃ s q, q ≤ 999 ∧
      stepMatch m c lc st mi = { emitFact m c st s q with pending := none }) := by
  cases htq : heuristic mi.token mi.g2 with
  | mk tok qs =>
    cases qs with
    | none => left; simp [stepMatch, htq]
    | some q =>
      simp only [stepMatch, htq]
      cases hmb : maybe_int q (nextCharOf mi.g2 mi.rest lc) with
      | none => left; simp [hmb]
      | some v =>
        right
        exact ⟨norm tok, v, maybe_int_le hmb, by simp [hmb]⟩

/-- The tail step likewise: unchanged, or an emission with a bounded quantity. -/
theorem stepTail_shape (m : List (Str × Str)) (c : List Str) (t : Str)
    (st : ScanState) :
    ((stepTail m c t st).movimentos = st.movimentos ∧
      (stepTail m c t st).vistos = st.vistos) ∨
    (∃ s q, q ≤ 999 ∧
      stepTail m c t st = { emitFact m c st s q with pending := none }) := by
  unfold stepTail
  cases hp : st.pending with
  | none => left; exact ⟨rfl, rfl⟩
  | some p =>
    simp only
    split
    · cases hmb : maybe_int t none with
      | none => left; simp [hmb]
      | some q => right; exact ⟨norm p, q, maybe_int_le hmb, by simp [hmb]⟩
    · cases hm2 : m2match t with
      | none => left; simp [hm2]
      | some cap => right; exact ⟨norm p, digitsVal cap, m2match_le hm2, by simp [hm2]⟩

theorem foldl_preserve {σ β : Type} (P : σ → Prop) (f : σ → β → σ)
    (hf : ∀ s x, P s → P (f s x)) :
    ∀ (l : List β) (s : σ), P s → P (l.foldl f s) := by
  intro l
  induction l with
  | nil => intro s h; exact h
  | cons x t ih => intro s h; exact ih (f s x) (hf s x h)

theorem stepMatch_qtyOK (m : List (Str × Str)) (c : List Str) (lc : Option Char)
    (st : ScanState) (mi : MatchInfo) (h : qtyOK st) :
    qtyOK (stepMatch m c lc st mi) := by
  rcases stepMatch_shape m c lc st mi with ⟨hm, _⟩ | ⟨s, q, hq, he⟩
  · intro f hf; exact h f (hm ▸ hf)
  · rw [he]; intro f hf; exact emitFact_qtyOK h hq f hf

theorem stepTail_qtyOK (m : List (Str × Str)) (c : List Str) (t : Str)
    (st : ScanState) (h : qtyOK st) : qtyOK (stepTail m c t st) := by
  rcases stepTail_shape m c t st with ⟨hm, _⟩ | ⟨s, q, hq, he⟩
  · intro f hf; exact h f (hm ▸ hf)
  · rw [he]; intro f hf; exact emitFact_qtyOK h hq f hf

theorem stepMatch_keyOK (m : List (Str × Str)) (c : List Str) (lc : Option Char)
    (st : ScanState) (mi : MatchInfo) (h : keyOK st) :
    keyOK (stepMatch m c lc st mi) := by
  rcases stepMatch_shape m c lc st mi with ⟨hm, hv⟩ | ⟨s, q, _, he⟩
  · exact ⟨by rw [hm]; exact h.1, by rw [hm, hv]; exact h.2⟩
  · rw [he]
    exact ⟨(emitFact_keyOK h).1, (emitFact_keyOK h).2⟩

theorem stepTail_keyOK (m : List (Str × Str)) (c : List Str) (t : Str)
    (st : ScanState) (h : keyOK st) : keyOK (stepTail m c t st) := by
  rcases stepTail_shape m c t st with ⟨hm, hv⟩ | ⟨s, q, _, he⟩
  · exact ⟨by rw [hm]; exact h.1, by rw [hm, hv]; exact h.2⟩
  · rw [he]
    exact ⟨(emitFact_keyOK h).1, (emitFact_keyOK h).2⟩

theorem stepLine_qtyOK (m : List (Str × Str)) (c : List Str)
    (st : ScanState) (ln : Str) (h : qtyOK st) : qtyOK (stepLine m c st ln) := by
  unfold stepLine
  exact stepTail_qtyOK m c _ _
    (foldl_preserve qtyOK _ (fun s x hs => stepMatch_qtyOK m c _ s x hs) _ st h)

theorem stepLine_keyOK (m : List (Str × Str)) (c : List Str)
    (st : ScanState) (ln : Str) (h : keyOK st) : keyOK (stepLine m c st ln) := by
  unfold stepLine
  exact stepTail_keyOK m c _ _
    (foldl_preserve keyOK _ (fun s x hs => stepMatch_keyOK m c _ s x hs) _ st h)

theorem runDoc_qtyOK (m : List (Str × Str)) (c : List Str) (raw : Str) :
    qtyOK (runDoc m c raw) := by
  unfold runDoc
  refine foldl_preserve qtyOK _ (fun s x hs => stepLine_qtyOK m c s x hs) _ _ ?_
  intro f hf
  cases hf

theorem runDoc_keyOK (m : List (Str × Str)) (c : List Str) (raw : Str) :
    keyOK (runDoc m c raw) := by
  unfold runDoc
  refine foldl_preserve keyOK _ (fun s x hs => stepLine_keyOK m c s x hs) _ _ ?_
  exact ⟨List.nodup_nil, fun f hf => absurd hf (List.not_mem_nil f)⟩

theorem processar_facts (m : List (Str × Str)) (c : List Str) (raw : Str) :
    (processar m c raw).2.1 = (runDoc m c raw).movimentos := by
  simp only [processar]
  split
  · rename_i he; exact he.symm
  · rfl

/-! ### Claim theorems -/

theorem find?_of_filter_eq_singleton {α : Type} (p : α → Bool) :
    ∀ {l : List α} {c : α}, l.filter p = [c] → l.find? p = some c := by
  intro l
  induction l with
  | nil => intro c h; simp at h
  | cons a t ih =>
    intro c h
    by_cases hp : p a
    · rw [List.filter_cons_of_pos hp] at h
      rw [List.find?_cons_of_pos _ hp]
      exact congrArg some (List.cons_eq_cons.mp h).1
    · rw [List.filter_cons_of_neg (by simpa using hp)] at h
      rw [List.find?_cons_of_neg _ (by simpa using hp)]
      exact ih h

/-- C1 counterexample: with an empty mapping table and a catalog whose single
SKU normalizes equally to the extracted token, the fact is built with
`mapeado = true` (because `bool(mapped)` is true for any successful lookup),
contradicting the claim's `mapped = false`. -/
theorem claim1_counterexample :
    resolveFact [] ["AB-CD-M".toList] ("AB-CD-M".toList) = ("AB-CD-M".toList, true) := by
  decide

/-- C1 (amended): if the sanitized token has no entry in the mapping table and
exactly one (non-empty) catalog SKU has the same alphanumeric normalization,
the resolver returns that catalog SKU — but with `mapped = true`, since the
emitted `mapeado` flag is the truthiness of the whole lookup result, not a
marker of the mapping table having supplied it. -/
theorem claim1_unique_match (mapping : List (Str × Str)) (catalog : List Str)
    (sku c : Str)
    (hm : ∀ kv ∈ mapping, ¬ sanitize_sku kv.1 = sanitize_sku sku)
    (hc : catalog.filter
      (fun s => normalize_key s == normalize_key (sanitize_sku sku)) = [c])
    (hne : c ≠ []) :
    resolveFact mapping catalog sku = (c, true) := by
  have hmem : c ∈ catalog := by
    have : c ∈ catalog.filter
        (fun s => normalize_key s == normalize_key (sanitize_sku sku)) := by
      rw [hc]; exact List.mem_singleton_self c
    exact List.mem_of_mem_filter this
  have h1 : mapping.reverse.find?
      (fun kv => sanitize_sku kv.1 == sanitize_sku sku) = none := by
    apply List.find?_eq_none.mpr
    intro kv hkv
    simpa using hm kv (List.mem_reverse.mp hkv)
  have h2 : catalog.reverse.find?
      (fun s => normalize_key s == normalize_key (sanitize_sku sku)) = some c := by
    apply find?_of_filter_eq_singleton
    rw [List.filter_reverse, hc]
    rfl
  have h3 : catalog.isEmpty = false := by
    cases catalog with
    | nil => cases hmem
    | cons a t => rfl
  have hg : get_sku_mapping mapping catalog sku = some c := by
    simp only [get_sku_mapping, h1, h3, h2]
    rfl
  unfold resolveFact
  rw [hg]
  simp [hne]

/-- C1 witness: concrete instantiation of the amended resolver behaviour. -/
theorem claim1_witness :
    resolveFact [] ["FOO".toList] ("f-o-o".toList) = ("FOO".toList, true) :=
  claim1_unique_match [] ["FOO".toList] ("f-o-o".toList) ("FOO".toList)
    (by simp) (by decide) (by decide)

/-- C2 counterexample: the document line `AB-CD-M0` produces one fact whose
quantity is 0, so the claimed lower bound `1 ≤ quantity` fails. -/
theorem claim2_counterexample :
    ((processar [] [] ("AB-CD-M0".toList)).2.1.map Fact.quantidade) = [0] := by
  decide

/-- C2 (amended): every emitted fact's quantity is a natural number at most
999 (the token grammar admits at most three digits), but the lower bound is
0, not 1: a fused digit `0` is emitted as a quantity-0 fact. -/
theorem claim2_quantity_bound (mapping : List (Str × Str)) (catalog : List Str)
    (raw : Str) (f : Fact) (hf : f ∈ (processar mapping catalog raw).2.1) :
    f.quantidade ≤ 999 := by
  rw [processar_facts] at hf
  exact runDoc_qtyOK mapping catalog raw f hf

/-- C2 witness: the bound applied to the concrete quantity-0 fact of the
counterexample document. -/
theorem claim2_witness :
    (⟨"AB-CD-M".toList, "AB-CD-M".toList, 0, false⟩ : Fact).quantidade ≤ 999 :=
  claim2_quantity_bound [] [] ("AB-CD-M0".toList)
    ⟨"AB-CD-M".toList, "AB-CD-M".toList, 0, false⟩ (by decide)

/-- C3: `maybe_int` on a 1-3 digit candidate whose following character is `/`
returns the value of the candidate's first digit only (date protection), never
the full multi-digit value. -/
theorem claim3_date_guard (c : Char) (cs : Str)
    (h1 : (c :: cs).length ≤ 3) (h2 : (c :: cs).all isDig = true) :
    maybe_int (c :: cs) (some '/') = some (digitVal c) := by
  unfold maybe_int
  rw [if_pos ⟨by simp, h1, h2⟩, if_pos rfl]
  rfl

/-- C3 witness: the candidate `12` followed by `/` yields quantity 1. -/
theorem claim3_witness : maybe_int ("12".toList) (some '/') = some 1 :=
  claim3_date_guard '1' ['2'] (by decide) (by decide)

/-- C4 counterexample: two SKU tokens differing only in hyphen placement
(`AB-CD-EF-M` vs `ABCD-EF-M`) with the same quantity yield TWO facts whose
claim-normalized keys (letters/digits only, upper-cased) coincide — the
dedup key keeps hyphens, so the claimed at-most-one property fails. -/
theorem claim4_counterexample :
    ((processar [] [] ("AB-CD-EF-M2\nABCD-EF-M2".toList)).2.1.map
      (fun f => (normalize_key f.sku_pdf, f.quantidade))) =
    [("ABCDEFM".toList, 2), ("ABCDEFM".toList, 2)] := by
  decide

/-- C4 (amended): within one document parse, at most one fact is emitted per
`(sku_pdf, quantidade)` pair, where `sku_pdf` is the token normalized by the
scanner's `norm` (upper-cased, whitespace removed, hyphen runs collapsed) —
hyphen placement remains significant, so tokens differing only in hyphens
produce distinct facts. -/
theorem claim4_dedup (mapping : List (Str × Str)) (catalog : List Str) (raw : Str) :
    ((processar mapping catalog raw).2.1.map keyF).Nodup := by
  rw [processar_facts]
  exact (runDoc_keyOK mapping catalog raw).1

/-- C10: the carry-over slot is silently dropped at end of document.  The
output of `processar` is exactly the facts accumulated by the line scan (no
flush of the final pending token), and on the document consisting of the
single bare token line `AB-CD-EF-M` the scan ends with that token pending,
zero facts, and the "nothing found" result. -/
theorem claim10_pending_discarded :
    (∀ (mapping : List (Str × Str)) (catalog : List Str) (raw : Str),
      (processar mapping catalog raw).2.1 = (runDoc mapping catalog raw).movimentos)
    ∧ (runDoc [] [] ("AB-CD-EF-M".toList)).pending = some ("AB-CD-EF-M".toList)
    ∧ (runDoc [] [] ("AB-CD-EF-M".toList)).movimentos = []
    ∧ processar [] [] ("AB-CD-EF-M".toList) =
        (false, [], "Nenhum item encontrado no PDF.".toList) :=
  ⟨processar_facts, by decide, by decide, by decide⟩

/-! ### Commit-side claim theorems -/

/-- Per-row effect of the commit loop on the counters and movement list. -/
theorem applyRow_fields (catalog : List Str) (grava : Bool) (acc : ApplyResult) (r : Row) :
    (applyRow catalog grava acc r).faltando =
      acc.faltando + (if (sanitize_sku r.sku) = [] then 1 else 0)
    ∧ (applyRow catalog grava acc r).erros =
      acc.erros + (if (sanitize_sku r.sku) ≠ [] ∧
        catalog.reverse.find? (fun o => sanitize_sku o == sanitize_sku r.sku) = none
        then 1 else 0)
    ∧ (applyRow catalog grava acc r).ok =
      acc.ok + (if (sanitize_sku r.sku) ≠ [] ∧
        (catalog.reverse.find? (fun o => sanitize_sku o == sanitize_sku r.sku)).isSome
        then 1 else 0)
    ∧ (applyRow catalog grava acc r).movements.length =
      acc.movements.length + (if (sanitize_sku r.sku) ≠ [] ∧
        (catalog.reverse.find? (fun o => sanitize_sku o == sanitize_sku r.sku)).isSome
        then 1 else 0) := by
  unfold applyRow
  by_cases hs : sanitize_sku r.sku = []
  · simp [hs]
  · simp only [hs, if_false]
    cases hf : catalog.reverse.find? (fun o => sanitize_sku o == sanitize_sku r.sku) with
    | none => simp [hs, hf]
    | some orig =>
      have horig : orig ∈ catalog :=
        List.mem_reverse.mp (List.mem_of_find?_eq_some hf)
      have hrec : record_movement catalog orig (-(|r.quantidade_corrigida|))
          "venda_pdf".toList =
          some ⟨orig, -(|r.quantidade_corrigida|), "venda_pdf".toList⟩ := by
        unfold record_movement
        rw [if_pos horig]
      simp only [hrec]
      split
      · simp [hs, hf]
      · simp [hs, hf]

theorem applyRows_go_fields (catalog : List Str) (grava : Bool) :
    ∀ (rows : List Row) (acc : ApplyResult),
    (rows.foldl (applyRow catalog grava) acc).faltando =
      acc.faltando + rows.countP (fun r => decide ((sanitize_sku r.sku) = []))
    ∧ (rows.foldl (applyRow catalog grava) acc).erros =
      acc.erros + rows.countP (fun r => decide ((sanitize_sku r.sku) ≠ [] ∧
        catalog.reverse.find? (fun o => sanitize_sku o == sanitize_sku r.sku) = none))
    ∧ (rows.foldl (applyRow catalog grava) acc).ok =
      acc.ok + rows.countP (fun r => decide ((sanitize_sku r.sku) ≠ [] ∧
        (catalog.reverse.find? (fun o => sanitize_sku o == sanitize_sku r.sku)).isSome))
    ∧ (rows.foldl (applyRow catalog grava) acc).movements.length =
      acc.movements.length + rows.countP (fun r => decide ((sanitize_sku r.sku) ≠ [] ∧
        (catalog.reverse.find? (fun o => sanitize_sku o == sanitize_sku r.sku)).isSome)) := by
  intro rows
  induction rows with
  | nil =>
    intro acc
    simp
  | cons r t ih =>
    intro acc
    have hstep := applyRow_fields catalog grava acc r
    have hrec := ih (applyRow catalog grava acc r)
    simp only [List.foldl_cons, List.countP_cons]
    refine ⟨?_, ?_, ?_, ?_⟩
    · rw [hrec.1, hstep.1]
      by_cases h : sanitize_sku r.sku = [] <;> simp [h] <;> omega
    · rw [hrec.2.1, hstep.2.1]
      by_cases h : (sanitize_sku r.sku) ≠ [] ∧
          catalog.reverse.find? (fun o => sanitize_sku o == sanitize_sku r.sku) = none <;>
        simp [h] <;> omega
    · rw [hrec.2.2.1, hstep.2.2.1]
      by_cases h : (sanitize_sku r.sku) ≠ [] ∧
          (catalog.reverse.find? (fun o => sanitize_sku o == sanitize_sku r.sku)).isSome <;>
        simp [h] <;> omega
    · rw [hrec.2.2.2, hstep.2.2.2]
      by_cases h : (sanitize_sku r.sku) ≠ [] ∧
          (catalog.reverse.find? (fun o => sanitize_sku o == sanitize_sku r.sku)).isSome <;>
        simp [h] <;> omega

/-- C5 counterexample: a batch of one row whose SKU (`Y`) is absent from the
catalog (`[X]`) commits with `erros = 1` and `faltando = 0` — the row is
counted in the ERRORED tally, not in the skipped ("Sem SKU preenchido")
tally that the claim names. -/
theorem claim5_counterexample :
    aplicarBaixas ["X".toList] false true [⟨"A".toList, 1, 1, "Y".toList, false⟩] =
      .applied ⟨[], [], 0, 0, 1, 0⟩ := by
  decide

/-- C5 (amended): a committed row whose non-empty sanitized SKU is absent
from the live catalog produces no movement but is counted in the ERRORED
count (`Erros`); the separately reported skipped count (`Sem SKU preenchido`,
`faltando`) counts exactly the rows whose sanitized SKU is empty, and
movements are recorded exactly for the rows whose sanitized SKU is found in
the catalog. -/
theorem claim5_unresolved_counting (catalog : List Str) (grava : Bool) (rows : List Row) :
    (applyRows catalog grava rows).faltando =
      rows.countP (fun r => decide ((sanitize_sku r.sku) = []))
    ∧ (applyRows catalog grava rows).erros =
      rows.countP (fun r => decide ((sanitize_sku r.sku) ≠ [] ∧
        catalog.reverse.find? (fun o => sanitize_sku o == sanitize_sku r.sku) = none))
    ∧ (applyRows catalog grava rows).movements.length =
      rows.countP (fun r => decide ((sanitize_sku r.sku) ≠ [] ∧
        (catalog.reverse.find? (fun o => sanitize_sku o == sanitize_sku r.sku)).isSome)) := by
  have h := applyRows_go_fields catalog grava rows ⟨[], [], 0, 0, 0, 0⟩
  unfold applyRows
  exact ⟨by simpa using h.1, by simpa using h.2.1, by simpa using h.2.2.2⟩

/-- C6: in every preview row, the simulated after-stock is exactly the
before-stock minus the used (corrected, clipped-at-0) quantity — hence minus
the corrected quantity itself whenever it is non-negative — the before-stock
defaults to 0 when the resolved SKU is absent from the stock map, and the
status is the negative/zero/OK trichotomy of the after-stock. -/
theorem claim6_simulation (catalog : List Str) (stock : List (Str × Int)) (r : Row) :
    (previewRow catalog stock r).depois =
      (previewRow catalog stock r).antes - (previewRow catalog stock r).usada
    ∧ (0 ≤ r.quantidade_corrigida →
       (previewRow catalog stock r).depois =
         (previewRow catalog stock r).antes - r.quantidade_corrigida)
    ∧ ((∀ e ∈ stock, ¬ e.1 = (previewRow catalog stock r).skuEst) →
       (previewRow catalog stock r).antes = 0)
    ∧ ((previewRow catalog stock r).depois < 0 →
       (previewRow catalog stock r).status = "FICA NEGATIVO".toList)
    ∧ ((previewRow catalog stock r).depois = 0 →
       (previewRow catalog stock r).status = "ZERA ESTOQUE".toList)
    ∧ (0 < (previewRow catalog stock r).depois →
       (previewRow catalog stock r).status = "OK".toList) := by
  refine ⟨rfl, ?_, ?_, ?_, ?_, ?_⟩
  · intro h
    have : max r.quantidade_corrigida 0 = r.quantidade_corrigida := max_eq_left h
    simp only [previewRow, this]
  · intro h
    have hf : stock.reverse.find?
        (fun p => p.1 == to_original_if_possible catalog r.sku) = none := by
      apply List.find?_eq_none.mpr
      intro e he
      simpa using h e (List.mem_reverse.mp he)
    simp only [previewRow, hf]
  · intro h
    simp only [previewRow, status_row] at h ⊢
    rw [if_pos h]
  · intro h
    simp only [previewRow, status_row] at h ⊢
    rw [if_neg (by omega), if_pos h]
  · intro h
    simp only [previewRow, status_row] at h ⊢
    rw [if_neg (by omega), if_neg (by omega)]

/-- C6 witness: a row with corrected quantity 2 against an empty stock map:
before-stock defaults to 0, after = before - 2 = -2, status negative. -/
theorem claim6_witness :
    (previewRow [] [] ⟨[], 2, 2, [], false⟩).depois =
      (previewRow [] [] ⟨[], 2, 2, [], false⟩).antes - 2
    ∧ (previewRow [] [] ⟨[], 2, 2, [], false⟩).antes = 0
    ∧ (previewRow [] [] ⟨[], 2, 2, [], false⟩).status = "FICA NEGATIVO".toList :=
  ⟨(claim6_simulation [] [] ⟨[], 2, 2, [], false⟩).2.1 (by decide),
   (claim6_simulation [] [] ⟨[], 2, 2, [], false⟩).2.2.1 (by simp),
   (claim6_simulation [] [] ⟨[], 2, 2, [], false⟩).2.2.2.1 (by decide)⟩

/-- C7: a batch with some used quantity above 99 is rejected outright when
the confirmation flag is off; with the flag on (and the other commit gates
satisfied: non-empty batch, all corrected quantities positive) the whole
batch is applied. -/
theorem claim7_high_qty_gate (catalog : List Str) (grava : Bool) (rows : List Row)
    (hq : ∃ r ∈ rows, 99 < max r.quantidade_corrigida 0) :
    aplicarBaixas catalog grava false rows = .rejectedHighQty
    ∧ ((∀ r ∈ rows, 0 < r.quantidade_corrigida) →
       aplicarBaixas catalog grava true rows = .applied (applyRows catalog grava rows)) := by
  constructor
  · unfold aplicarBaixas
    rw [if_pos ⟨hq, rfl⟩]
  · intro hpos
    obtain ⟨r0, hr0, _⟩ := hq
    have hne : rows ≠ [] := List.ne_nil_of_mem hr0
    unfold aplicarBaixas
    rw [if_neg (by simp), if_neg hne, if_neg ?_]
    intro ⟨r, hr, hle⟩
    exact absurd (hpos r hr) (by omega)

/-- C7 witness: one row with quantity 100; rejected without the flag,
applied with it. -/
theorem claim7_witness :
    aplicarBaixas [] false false [⟨[], 100, 100, [], false⟩] = .rejectedHighQty
    ∧ aplicarBaixas [] false true [⟨[], 100, 100, [], false⟩] =
        .applied (applyRows [] false [⟨[], 100, 100, [], false⟩]) :=
  ⟨(claim7_high_qty_gate [] false [⟨[], 100, 100, [], false⟩] (by decide)).1,
   (claim7_high_qty_gate [] false [⟨[], 100, 100, [], false⟩] (by decide)).2 (by decide)⟩

/-- C8: if any row's corrected quantity is non-positive at commit time, the
batch is rejected before the loop runs: the outcome is never `applied` and no
movement at all is recorded, valid rows included. -/
theorem claim8_fail_closed (catalog : List Str) (grava confirmHigh : Bool)
    (rows : List Row) (h : ∃ r ∈ rows, r.quantidade_corrigida ≤ 0) :
    movementsOf (aplicarBaixas catalog grava confirmHigh rows) = []
    ∧ ∀ res, aplicarBaixas catalog grava confirmHigh rows ≠ .applied res := by
  unfold aplicarBaixas
  split_ifs with h1 h2
  · exact ⟨rfl, fun res => by simp⟩
  · exact ⟨rfl, fun res => by simp⟩
  · exact ⟨rfl, fun res => by simp⟩

/-- C8 witness: a two-row batch with one zero quantity commits nothing. -/
theorem claim8_witness :
    movementsOf (aplicarBaixas ["X".toList] true true
      [⟨"A".toList, 5, 5, "X".toList, false⟩, ⟨"B".toList, 1, 0, "X".toList, false⟩]) = []
    ∧ ∀ res, aplicarBaixas ["X".toList] true true
      [⟨"A".toList, 5, 5, "X".toList, false⟩, ⟨"B".toList, 1, 0, "X".toList, false⟩] ≠
        .applied res :=
  claim8_fail_closed ["X".toList] true true
    [⟨"A".toList, 5, 5, "X".toList, false⟩, ⟨"B".toList, 1, 0, "X".toList, false⟩]
    (by decide)

/-- The commit loop body either leaves the movement list alone or appends the
single movement `(orig, -abs(corrected), "venda_pdf")` for a catalog SKU. -/
theorem applyRow_movements (catalog : List Str) (grava : Bool)
    (acc : ApplyResult) (r : Row) :
    (applyRow catalog grava acc r).movements = acc.movements ∨
    ∃ orig, orig ∈ catalog ∧
      (applyRow catalog grava acc r).movements =
        acc.movements ++ [⟨orig, -(|r.quantidade_corrigida|), "venda_pdf".toList⟩] := by
  unfold applyRow
  by_cases hs : sanitize_sku r.sku = []
  · left; simp [hs]
  · simp only [hs, if_false]
    cases hf : catalog.reverse.find? (fun o => sanitize_sku o == sanitize_sku r.sku) with
    | none => left; simp [hs, hf]
    | some orig =>
      right
      refine ⟨orig, List.mem_reverse.mp (List.mem_of_find?_eq_some hf), ?_⟩
      have hrec : record_movement catalog orig (-(|r.quantidade_corrigida|))
          "venda_pdf".toList =
          some ⟨orig, -(|r.quantidade_corrigida|), "venda_pdf".toList⟩ := by
        unfold record_movement
        rw [if_pos (List.mem_reverse.mp (List.mem_of_find?_eq_some hf))]
      simp only [hs, hf, hrec]
      split <;> rfl

/-- Every movement appended by the commit loop carries reason `venda_pdf`, a
catalog SKU, and quantity `-abs(corrected)` of some row. -/
theorem applyRows_go_movements (catalog : List Str) (grava : Bool) :
    ∀ (rows : List Row) (acc : ApplyResult) (mv : Movement),
      mv ∈ (rows.foldl (applyRow catalog grava) acc).movements →
      mv ∈ acc.movements ∨
        (mv.reason = "venda_pdf".toList ∧ mv.sku ∈ catalog ∧
          ∃ r ∈ rows, mv.qty = -(|r.quantidade_corrigida|)) := by
  intro rows
  induction rows with
  | nil => intro acc mv hmv; exact Or.inl hmv
  | cons r t ih =>
    intro acc mv hmv
    rcases ih (applyRow catalog grava acc r) mv hmv with hstep | ⟨h1, h2, rr, hrr, h3⟩
    · rcases applyRow_movements catalog grava acc r with hm | ⟨orig, horig, hm⟩
      · exact Or.inl (hm ▸ hstep)
      · rw [hm] at hstep
        rcases List.mem_append.mp hstep with hold | hnew
        · exact Or.inl hold
        · right
          rw [List.mem_singleton] at hnew
          subst hnew
          exact ⟨rfl, horig, r, List.mem_cons_self r t, rfl⟩
    · exact Or.inr ⟨h1, h2, rr, List.mem_cons_of_mem r hrr, h3⟩

/-- C9: every movement recorded by the commit loop is a decrement of the
negated absolute value of some row's corrected quantity, written against a
catalog SKU with the fixed reason label `venda_pdf`, irrespective of the sign
of the value stored in the row. -/
theorem claim9_movement_shape (catalog : List Str) (grava : Bool) (rows : List Row)
    (mv : Movement) (hmv : mv ∈ (applyRows catalog grava rows).movements) :
    mv.reason = "venda_pdf".toList ∧ mv.sku ∈ catalog ∧
      ∃ r ∈ rows, mv.qty = -(|r.quantidade_corrigida|) := by
  rcases applyRows_go_movements catalog grava rows ⟨[], [], 0, 0, 0, 0⟩ mv hmv with h | h
  · cases h
  · exact h

/-- C9 witness: the single committed movement of a concrete batch has reason
`venda_pdf`, a catalog SKU, and quantity `-5 = -abs(5)`. -/
theorem claim9_witness :
    (⟨"X".toList, -5, "venda_pdf".toList⟩ : Movement).reason = "venda_pdf".toList
    ∧ (⟨"X".toList, -5, "venda_pdf".toList⟩ : Movement).sku ∈ ["X".toList]
    ∧ ∃ r ∈ [(⟨"A".toList, 5, 5, "X".toList, false⟩ : Row)],
        (⟨"X".toList, -5, "venda_pdf".toList⟩ : Movement).qty =
          -(|r.quantidade_corrigida|) :=
  claim9_movement_shape ["X".toList] true [⟨"A".toList, 5, 5, "X".toList, false⟩]
    ⟨"X".toList, -5, "venda_pdf".toList⟩ (by decide)

end EstoqueBB
